import Mathlib

/-!
Verification of the resilient data-acquisition layer of an MCP server for
Google Search Console (`mcp-server-gsc-oauth2`).

Shallow embedding of the TypeScript sources:
  * `src/utils/pagination.ts` — `paginateSearchAnalytics`
  * `src/utils/retry.ts`      — `withRetry`, `rateLimited`, `getStatusCode`
  * `src/service.ts`          — `normalizeUrl`, `withPermissionFallback`,
                                `searchAnalytics`

Modelling conventions:
  * Row counts, offsets and page sizes are `Nat`; delays are `ℚ`.
  * A page fetch / remote call is an oracle function supplied as a parameter;
    asynchronous results are `Except` values (resolved = `.ok`,
    rejected = `.error`).
  * The JS `while` loop of the paginator is embedded with an explicit fuel
    argument: `none` in the result means the loop did not finish within the
    given fuel (so termination of the real loop = `isSome` for some fuel).
  * Every upstream interaction is recorded in a trace so that claims about
    which calls happen, in which order and with which arguments, are statable.
-/

namespace GSC

/-! ## Pagination (`src/utils/pagination.ts`) -/

/-- One physical page fetch issued by the paginator: the `startRow` offset and
the `rowLimit` passed to `service.searchAnalytics`. -/
structure FetchCall where
  startRow : Nat
  rowLimit : Nat
  deriving Repr, DecidableEq

/-- The `while (startRow < maxRows)` loop of `paginateSearchAnalytics`
(pagination.ts lines 20–35), with explicit fuel.  `fetch s l` is the list of
rows the upstream returns for a request with `startRow = s, rowLimit = l`.
Returns the accumulated rows (`none` when the fuel ran out while the loop
would continue) together with the trace of page fetches issued. -/
def paginateGo (fetch : Nat → Nat → List ρ) (maxRows pageSize : Nat) :
    Nat → Nat → List ρ → Option (List ρ) × List FetchCall
  | fuel, startRow, acc =>
    if startRow < maxRows then
      match fuel with
      | 0 => (none, [])
      | fuel + 1 =>
        let limit := min pageSize (maxRows - startRow)
        let rows := fetch startRow limit
        if rows.length < limit then
          (some (acc ++ rows), [⟨startRow, limit⟩])
        else
          let rest := paginateGo fetch maxRows pageSize fuel (startRow + rows.length) (acc ++ rows)
          (rest.1, ⟨startRow, limit⟩ :: rest.2)
    else
      (some acc, [])

/-- Embedding of `paginateSearchAnalytics` (pagination.ts lines 9–38): applies the defaults
`maxRows = 100000`, `pageSize = min(opts.pageSize ?? 25000, 25000)` and runs
the loop from `startRow = 0` with an empty accumulator. -/
def paginateSearchAnalytics (fetch : Nat → Nat → List ρ)
    (optsMaxRows optsPageSize : Option Nat) (fuel : Nat) :
    Option (List ρ) × List FetchCall :=
  paginateGo fetch (optsMaxRows.getD 100000) (min (optsPageSize.getD 25000) 25000) fuel 0 []

/-! ## Retry and rate limiting (`src/utils/retry.ts`) -/

/-- The fields of a thrown JS value that this codebase probes: `getStatusCode`
reads `err.code`, `err.status` and `err.response.status` (a field is `none`
when absent or not a number; for a thrown non-object every field is `none`),
and `withPermissionFallback` reads `err instanceof Error` and `err.message`. -/
structure JsErr where
  code : Option Int
  status : Option Int
  responseStatus : Option Int
  isError : Bool
  message : String
  deriving Repr, DecidableEq

/-- Embedding of `getStatusCode` (retry.ts lines 48–62): probe `e.code`, then `e.status`,
then `e.response.status`, first numeric hit wins; `undefined` otherwise. -/
def getStatusCode (e : JsErr) : Option Int :=
  match e.code with
  | some n => some n
  | none =>
    match e.status with
    | some n => some n
    | none => e.responseStatus

/-- The retryability test of retry.ts lines 17–18:
`status === 429 || (status !== undefined && status >= 500)`. -/
def isRetryableErr (e : JsErr) : Bool :=
  match getStatusCode e with
  | some s => s == 429 || decide (500 ≤ s)
  | none => false

/-- The backoff delay of retry.ts line 22:
`baseDelay * Math.pow(2, attempt) * (0.5 + Math.random())`, where `r` stands
for the value returned by `Math.random()` (a value in `[0, 1)`). -/
def backoffDelay (baseDelay : ℚ) (attempt : Nat) (r : ℚ) : ℚ :=
  baseDelay * 2 ^ attempt * (1 / 2 + r)

/-- Observable outcome of one `withRetry` run: the final settled value, the
list of backoff sleeps performed (in order), and how many times the wrapped
operation was invoked. -/
structure RetryOut (α : Type) where
  result : Except JsErr α
  delays : List ℚ
  calls : Nat
  deriving Repr

/-- The `for (attempt = 0; attempt <= maxRetries; attempt++)` loop of
`withRetry` (retry.ts lines 12–25).  `fetch a` is the settled outcome of the
wrapped operation on attempt `a` (0-based); `rand a` is the `Math.random()`
draw used for the backoff after attempt `a`.  `fuel = maxRetries - attempt`,
so `fuel = 0` is exactly the `attempt === maxRetries` test of line 20. -/
def withRetryGo (fetch : Nat → Except JsErr α) (baseDelay : ℚ) (rand : Nat → ℚ) :
    Nat → Nat → RetryOut α
  | attempt, fuel =>
    match fetch attempt with
    | .ok v => ⟨.ok v, [], 1⟩
    | .error e =>
      if isRetryableErr e then
        match fuel with
        | 0 => ⟨.error e, [], 1⟩
        | fuel + 1 =>
          let d := backoffDelay baseDelay attempt (rand attempt)
          let out := withRetryGo fetch baseDelay rand (attempt + 1) fuel
          ⟨out.result, d :: out.delays, out.calls + 1⟩
      else ⟨.error e, [], 1⟩

/-- Embedding of `withRetry` (retry.ts lines 5–29); the JS defaults are `maxRetries = 3`,
`baseDelay = 1000` (so `maxRetries + 1` total attempts). -/
def withRetry (fetch : Nat → Except JsErr α) (maxRetries : Nat) (baseDelay : ℚ)
    (rand : Nat → ℚ) : RetryOut α :=
  withRetryGo fetch baseDelay rand 0 maxRetries

/-- One observable step of `rateLimited`: a `sleep(ms)` or the invocation of
the `i`-th operation of the batch. -/
inductive RLStep where
  | delay (ms : ℚ)
  | invoke (i : Nat)
  deriving Repr, DecidableEq

/-- The `for` loop of `rateLimited` (retry.ts lines 36–41), indexed by the
position `i` of the head operation: `if (i > 0) await sleep(delayMs)`, then
invoke `fns[i]`; a rejection propagates and aborts the remaining queue. -/
def rateLimitedGo (delayMs : ℚ) : List (Except JsErr α) → Nat → Except JsErr (List α) × List RLStep
  | [], _ => (.ok [], [])
  | f :: rest, i =>
    let pre : List RLStep := if 0 < i then [.delay delayMs] else []
    match f with
    | .error e => (.error e, pre ++ [.invoke i])
    | .ok v =>
      let out := rateLimitedGo delayMs rest (i + 1)
      (out.1.map (fun l => v :: l), pre ++ [.invoke i] ++ out.2)

/-- Embedding of `rateLimited` (retry.ts lines 32–42): `fns` is the list of the operations'
settled outcomes, in input order. -/
def rateLimited (fns : List (Except JsErr α)) (delayMs : ℚ) :
    Except JsErr (List α) × List RLStep :=
  rateLimitedGo delayMs fns 0

/-- Project the sleep amounts out of a `rateLimited` trace. -/
def stepDelayAmount : RLStep → Option ℚ
  | .delay ms => some ms
  | .invoke _ => none

/-- Project the invocation indices out of a `rateLimited` trace. -/
def stepInvokeIdx : RLStep → Option Nat
  | .invoke i => some i
  | .delay _ => none

/-! ## Permission fallback (`src/service.ts`) -/

/-- Tests that `pat` begins `s` (character-wise). -/
def charsBeginWith : List Char → List Char → Bool
  | _, [] => true
  | [], _ :: _ => false
  | c :: cs, p :: ps => c == p && charsBeginWith cs ps

/-- Tests that `pat` occurs as a contiguous substring of `s` (the JS
`String.prototype.includes`). -/
def strIncludes (s pat : String) : Bool :=
  go s.toList pat.toList
where
  go : List Char → List Char → Bool
    | _, [] => true
    | [], _ :: _ => false
    | c :: cs, p :: ps => charsBeginWith (c :: cs) (p :: ps) || go cs (p :: ps)

/-- ASCII lowercasing (the JS `String.prototype.toLowerCase`; the only
pattern searched for is the ASCII word `"permission"`). -/
def lowerString (s : String) : String :=
  String.mk (s.toList.map Char.toLower)

/-- The JS `String.prototype.startsWith`. -/
def jsStartsWith (s pre : String) : Bool :=
  charsBeginWith s.toList pre.toList

/-- The permission-error test of service.ts lines 69–72:
`err instanceof Error && err.message.toLowerCase().includes('permission')`. -/
def isPermissionError (e : JsErr) : Bool :=
  e.isError && strIncludes (lowerString e.message) "permission"

/-- Embedding of `withPermissionFallback` (service.ts lines 62–77) over traced operations:
an operation is its settled outcome paired with the trace of upstream calls it
performs (for the service methods, the list of `siteUrl`s queried).  Await the
operation; if it rejects with a permission error, await and return the
fallback (its calls append to the trace); any other rejection re-throws. -/
def withPermissionFallback (operation fallback : Except JsErr α × List String) :
    Except JsErr α × List String :=
  match operation with
  | (.ok v, t) => (.ok v, t)
  | (.error e, t) =>
    if isPermissionError e then (fallback.1, t ++ fallback.2)
    else (.error e, t)

/-- Embedding of `normalizeUrl` (service.ts lines 47–55).  `parseHost u` models the WHATWG
`new URL(u).hostname`: `none` when the constructor throws. -/
def normalizeUrl (parseHost : String → Option String) (url : String) : String :=
  if jsStartsWith url "sc-domain:" then url
  else
    match parseHost url with
    | some h => "sc-domain:" ++ h
    | none => url

/-- Embedding of `searchAnalytics` (service.ts lines 92–102): query with the identifier as
given; on a permission error, query once more with the normalized identifier.
`query i u` is the settled outcome of the `i`-th physical query (0 = primary,
1 = fallback) against site `u`; the trace records the identifiers queried. -/
def searchAnalytics (query : Nat → String → Except JsErr α)
    (parseHost : String → Option String) (siteUrl : String) :
    Except JsErr α × List String :=
  withPermissionFallback (query 0 siteUrl, [siteUrl])
    (query 1 (normalizeUrl parseHost siteUrl), [normalizeUrl parseHost siteUrl])

/-! ## Pagination lemmas -/

/-- Every fetch issued by the loop requests at most `pageSize` rows. -/
lemma paginateGo_rowLimit_le (fetch : Nat → Nat → List ρ) (maxRows p : Nat) :
    ∀ fuel startRow acc c, c ∈ (paginateGo fetch maxRows p fuel startRow acc).2 →
      c.rowLimit ≤ p := by
  intro fuel
  induction fuel with
  | zero =>
    intro startRow acc c hc
    rw [paginateGo] at hc
    by_cases h : startRow < maxRows <;> simp [h] at hc
  | succ n ih =>
    intro startRow acc c hc
    rw [paginateGo] at hc
    by_cases h : startRow < maxRows
    · simp only [if_pos h] at hc
      by_cases hshort :
          (fetch startRow (min p (maxRows - startRow))).length < min p (maxRows - startRow)
      · simp only [if_pos hshort, List.mem_singleton] at hc
        subst hc
        exact min_le_left _ _
      · simp only [if_neg hshort, List.mem_cons] at hc
        rcases hc with hc | hc
        · subst hc
          exact min_le_left _ _
        · exact ih _ _ _ hc
    · simp [h] at hc

/-- Invariant of the loop: when each page returns at most the requested
number of rows, the accumulator length tracks `startRow` and stays below
`maxRows`. -/
lemma paginateGo_length_le (fetch : Nat → Nat → List ρ) (maxRows p : Nat)
    (hfetch : ∀ s l, (fetch s l).length ≤ l) :
    ∀ fuel startRow acc res, acc.length = startRow → startRow ≤ maxRows →
      (paginateGo fetch maxRows p fuel startRow acc).1 = some res →
      res.length ≤ maxRows := by
  intro fuel
  induction fuel with
  | zero =>
    intro startRow acc res hacc hle h
    rw [paginateGo] at h
    by_cases hlt : startRow < maxRows <;> simp [hlt] at h
    subst h
    omega
  | succ n ih =>
    intro startRow acc res hacc hle h
    rw [paginateGo] at h
    by_cases hlt : startRow < maxRows
    · simp only [if_pos hlt] at h
      set limit := min p (maxRows - startRow) with hlim
      have hrows := hfetch startRow limit
      by_cases hshort : (fetch startRow limit).length < limit
      · simp only [if_pos hshort, Option.some.injEq] at h
        subst h
        simp only [List.length_append]
        omega
      · simp only [if_neg hshort] at h
        refine ih (startRow + (fetch startRow limit).length) _ res ?_ ?_ h
        · simp [hacc]
        · omega
    · simp only [if_neg hlt, Option.some.injEq] at h
      subst h
      omega

/-- Termination and call-count bound of the loop for a positive page size:
fuel `maxRows - startRow + 1` always suffices, and the number of fetches is
at most `⌈(maxRows - startRow) / p⌉`. -/
lemma paginateGo_term (fetch : Nat → Nat → List ρ) (maxRows p : Nat) (hp : 1 ≤ p) :
    ∀ fuel startRow acc, maxRows - startRow < fuel →
      (paginateGo fetch maxRows p fuel startRow acc).1.isSome = true ∧
      (paginateGo fetch maxRows p fuel startRow acc).2.length
        ≤ (maxRows - startRow + p - 1) / p := by
  intro fuel
  induction fuel with
  | zero => intro startRow acc hfuel; omega
  | succ n ih =>
    intro startRow acc hfuel
    rw [paginateGo]
    by_cases hlt : startRow < maxRows
    · simp only [if_pos hlt]
      set limit := min p (maxRows - startRow) with hlim
      by_cases hshort : (fetch startRow limit).length < limit
      · simp only [if_pos hshort, Option.isSome_some, List.length_singleton, true_and]
        rw [Nat.le_div_iff_mul_le (by omega)]
        omega
      · simp only [if_neg hshort]
        have hL : limit ≤ (fetch startRow limit).length := Nat.le_of_not_lt hshort
        have hrec := ih (startRow + (fetch startRow limit).length) (acc ++ fetch startRow limit)
          (by omega)
        refine ⟨hrec.1, ?_⟩
        simp only [List.length_cons]
        have hbound := hrec.2
        by_cases hcase : maxRows - startRow ≤ p
        · have h0 : maxRows - (startRow + (fetch startRow limit).length) = 0 := by omega
          rw [h0] at hbound
          rw [Nat.div_eq_of_lt (by omega : 0 + p - 1 < p)] at hbound
          rw [Nat.le_zero.mp hbound]
          rw [Nat.le_div_iff_mul_le (by omega)]
          omega
        · have h1 : maxRows - (startRow + (fetch startRow limit).length) + p - 1
              ≤ maxRows - startRow - 1 := by omega
          have h2 := Nat.div_le_div_right (c := p) h1
          have h3 : maxRows - startRow + p - 1 = (maxRows - startRow - 1) + p := by omega
          rw [h3, Nat.add_div_right _ (by omega)]
          omega
    · simp only [if_neg hlt, Option.isSome_some, List.length_nil, true_and]
      exact Nat.zero_le _

/-- With page size `0` (and an upstream returning no rows for a zero-row
request) the loop makes no progress: it never finishes, whatever the fuel. -/
lemma paginateGo_pageSizeZero (fuel : Nat) :
    ∀ acc : List Nat, (paginateGo (fun _ _ => ([] : List Nat)) 1 0 fuel 0 acc).1 = none := by
  induction fuel with
  | zero => intro acc; rw [paginateGo]; simp
  | succ n ih => intro acc; rw [paginateGo]; simpa using ih acc

/-! ## Claims about the paginator -/

/-- C1 (amended): provided every page fetch returns at most the requested
`rowLimit` rows, the row sequence returned by `paginateSearchAnalytics`
contains at most `maxRows` rows (for every `maxRows`, `pageSize` and fuel
budget).  The unamended claim, quantified over arbitrary page-fetch results,
fails when a page returns more rows than requested (see the counterexample). -/
theorem paginate_result_le_maxRows (fetch : Nat → Nat → List ρ)
    (optsMaxRows optsPageSize : Option Nat) (fuel : Nat) (res : List ρ)
    (hfetch : ∀ s l, (fetch s l).length ≤ l)
    (h : (paginateSearchAnalytics fetch optsMaxRows optsPageSize fuel).1 = some res) :
    res.length ≤ optsMaxRows.getD 100000 :=
  paginateGo_length_le fetch (optsMaxRows.getD 100000) _ hfetch fuel 0 [] res rfl
    (Nat.zero_le _) h

/-- Witness for C1: `maxRows = 5`, `pageSize = 2`, an upstream with exactly
2 rows available per request: the result has at most 5 rows. -/
theorem paginate_result_le_maxRows_witness :
    (List.replicate 5 (0 : Nat)).length ≤ (some 5).getD 100000 :=
  paginate_result_le_maxRows (fun _ l => List.replicate (min l 2) (0 : Nat))
    (some 5) (some 2) 10 (List.replicate 5 0)
    (fun s l => by simp) (by decide)

/-- C1 counterexample: with `maxRows = 1`, an upstream page that returns 2
rows against `rowLimit = 1` makes the accumulated result exceed `maxRows` —
the loop appends the whole page before checking anything. -/
theorem paginate_exceeds_maxRows_cex :
    (paginateSearchAnalytics (fun _ _ => [(0 : Nat), 1]) (some 1) none 5).1 = some [0, 1] ∧
    (some 1).getD 100000 < [(0 : Nat), 1].length := by
  decide

/-- C2 (amended): for every `maxRows` and every `pageSize ≥ 1`, and arbitrary
page-fetch results, the loop of `paginateSearchAnalytics` terminates (fuel
`maxRows + 1` always suffices) and issues at most
`⌈maxRows / min(pageSize, 25000)⌉` page fetches.  The unamended claim,
quantified over every `pageSize`, fails at `pageSize = 0`: the loop makes no
progress (see the counterexample). -/
theorem paginate_terminates_bounded (fetch : Nat → Nat → List ρ)
    (maxRows pageSize : Nat) (hps : 1 ≤ pageSize) :
    (paginateSearchAnalytics fetch (some maxRows) (some pageSize) (maxRows + 1)).1.isSome
      = true ∧
    (paginateSearchAnalytics fetch (some maxRows) (some pageSize) (maxRows + 1)).2.length
      ≤ (maxRows + min pageSize 25000 - 1) / min pageSize 25000 := by
  have hp : 1 ≤ min pageSize 25000 := le_min hps (by norm_num)
  have h := paginateGo_term fetch maxRows (min pageSize 25000) hp (maxRows + 1) 0 []
    (by omega)
  simpa [paginateSearchAnalytics] using h

/-- Witness for C2: `maxRows = 3`, `pageSize = 1`, an upstream with no rows:
the run finishes and issues at most `⌈3 / 1⌉ = 3` fetches. -/
theorem paginate_terminates_bounded_witness :
    (paginateSearchAnalytics (fun _ _ => ([] : List Nat)) (some 3) (some 1) 4).1.isSome
      = true ∧
    (paginateSearchAnalytics (fun _ _ => ([] : List Nat)) (some 3) (some 1) 4).2.length
      ≤ (3 + min 1 25000 - 1) / min 1 25000 :=
  paginate_terminates_bounded (fun _ _ => ([] : List Nat)) 3 1 (by decide)

/-- C2 counterexample: at `pageSize = 0` (with an upstream returning no rows
for a zero-row request) `paginateSearchAnalytics` never terminates: the loop
requests `rowLimit = 0`, gets 0 rows, `0 < 0` fails so it does not break, and
`startRow` never advances.  No fuel budget completes the run. -/
theorem paginate_pageSizeZero_diverges_cex :
    ¬ ∃ fuel res,
        (paginateSearchAnalytics (fun _ _ => ([] : List Nat)) (some 1) (some 0) fuel).1
          = some res := by
  rintro ⟨fuel, res, h⟩
  rw [paginateSearchAnalytics] at h
  simp only [Option.getD_some, Nat.zero_min] at h
  rw [paginateGo_pageSizeZero fuel []] at h
  cases h

/-- C3: every page fetch issued by `paginateSearchAnalytics` requests a
`rowLimit` of at most 25000, for every caller-supplied `pageSize` and
`maxRows` (the page size is clamped to 25000 before the loop starts, and each
per-page limit is at most the clamped page size). -/
theorem paginate_rowLimit_capped (fetch : Nat → Nat → List ρ)
    (optsMaxRows optsPageSize : Option Nat) (fuel : Nat) (c : FetchCall)
    (hc : c ∈ (paginateSearchAnalytics fetch optsMaxRows optsPageSize fuel).2) :
    c.rowLimit ≤ 25000 :=
  le_trans (paginateGo_rowLimit_le fetch _ _ fuel 0 [] c hc) (min_le_right _ _)

/-- Witness for C3: a run with `maxRows = 1` issues the single fetch
`⟨0, 1⟩`, whose `rowLimit` is at most 25000. -/
theorem paginate_rowLimit_capped_witness : (FetchCall.mk 0 1).rowLimit ≤ 25000 :=
  paginate_rowLimit_capped (fun _ _ => ([] : List Nat)) (some 1) none 1 ⟨0, 1⟩
    (by decide)

/-- C4: if a page fetch returns fewer rows than the requested limit, the loop
performs no further page fetches and returns the rows accumulated so far
(the accumulator plus this last short page), even though
`startRow < maxRows`. -/
theorem paginate_short_page_stops (fetch : Nat → Nat → List ρ)
    (maxRows pageSize fuel startRow : Nat) (acc : List ρ)
    (hlt : startRow < maxRows)
    (hshort : (fetch startRow (min pageSize (maxRows - startRow))).length
      < min pageSize (maxRows - startRow)) :
    paginateGo fetch maxRows pageSize (fuel + 1) startRow acc =
      (some (acc ++ fetch startRow (min pageSize (maxRows - startRow))),
        [⟨startRow, min pageSize (maxRows - startRow)⟩]) := by
  rw [paginateGo]
  simp [hlt, hshort]

/-- Witness for C4: at `startRow = 0`, `maxRows = 10`, `pageSize = 3`, a page
of one row (short of the limit 3) ends the run at once with that single
fetch, well before `maxRows`. -/
theorem paginate_short_page_stops_witness :
    paginateGo (fun _ _ => [(7 : Nat)]) 10 3 1 0 [] = (some [7], [⟨0, 3⟩]) :=
  paginate_short_page_stops (fun _ _ => [(7 : Nat)]) 10 3 0 0 [] (by decide) (by decide)

/-! ## Retry lemmas -/

/-- A status of 503 is classified retryable. -/
lemma isRetryableErr_of_503 (e : JsErr) (h : getStatusCode e = some 503) :
    isRetryableErr e = true := by
  simp [isRetryableErr, h]

/-- Behaviour of the retry loop from attempt `a` when the operation fails
retryably on the next `k` attempts and succeeds on attempt `a + k`: the loop
returns the success, makes `k + 1` calls and performs exactly the `k` backoff
sleeps, in order. -/
lemma withRetryGo_fail_then_ok (fetch : Nat → Except JsErr α) (base : ℚ)
    (rand : Nat → ℚ) (v : α) :
    ∀ k a fuel, k ≤ fuel →
      (∀ i, i < k → ∃ e, fetch (a + i) = Except.error e ∧ isRetryableErr e = true) →
      fetch (a + k) = Except.ok v →
      withRetryGo fetch base rand a fuel =
        ⟨Except.ok v,
          (List.range k).map (fun i => backoffDelay base (a + i) (rand (a + i))),
          k + 1⟩ := by
  intro k
  induction k with
  | zero =>
    intro a fuel _ _ hsucc
    rw [withRetryGo]
    simp only [Nat.add_zero] at hsucc
    rw [hsucc]
    simp
  | succ k ih =>
    intro a fuel hk hfail hsucc
    obtain ⟨e, he, hr⟩ := hfail 0 (Nat.succ_pos k)
    rw [Nat.add_zero] at he
    obtain ⟨fuel, rfl⟩ : ∃ f, fuel = f + 1 := ⟨fuel - 1, by omega⟩
    rw [withRetryGo, he]
    simp only [hr, if_true]
    have hrec := ih (a + 1) fuel (by omega)
      (fun i hi => by
        obtain ⟨e', he', hr'⟩ := hfail (i + 1) (by omega)
        exact ⟨e', by rw [← he']; congr 1; omega, hr'⟩)
      (by rw [← hsucc]; congr 1; omega)
    rw [hrec]
    simp only [RetryOut.mk.injEq, and_true, true_and]
    rw [List.range_succ_eq_map, List.map_cons, List.map_map]
    congr 1
    apply List.map_congr_left
    intro i _
    simp only [Function.comp_apply, Nat.succ_eq_add_one]
    have h' : a + 1 + i = a + (i + 1) := by omega
    rw [h']

/-! ## Claims about the backoff retrier -/

/-- C5: if the wrapped operation fails with status 503 on the first `k`
attempts and succeeds on attempt `k + 1` (1-based), with
`k < maxRetries + 1` (the total-attempt budget), then `withRetry` returns the
success value, invokes the operation exactly `k + 1` times, and performs
exactly `k` backoff sleeps, the `i`-th (0-based) of which is at least
`baseDelay * 2 ^ i * (1/2)`.  `rand` models `Math.random()`, so each draw is
nonnegative; `base` is the configured `baseDelayMs`. -/
theorem withRetry_transient_then_success (fetch : Nat → Except JsErr α)
    (maxRetries : Nat) (base : ℚ) (rand : Nat → ℚ) (v : α) (k : Nat)
    (hbase : 0 ≤ base) (hrand : ∀ i, 0 ≤ rand i)
    (hk : k < maxRetries + 1)
    (hfail : ∀ i, i < k → ∃ e, fetch i = Except.error e ∧ getStatusCode e = some 503)
    (hsucc : fetch k = Except.ok v) :
    (withRetry fetch maxRetries base rand).result = Except.ok v ∧
    (withRetry fetch maxRetries base rand).calls = k + 1 ∧
    (withRetry fetch maxRetries base rand).delays.length = k ∧
    ∀ i, ∀ hi : i < (withRetry fetch maxRetries base rand).delays.length,
      base * 2 ^ i * (1 / 2) ≤ (withRetry fetch maxRetries base rand).delays.get ⟨i, hi⟩ := by
  have hrun := withRetryGo_fail_then_ok fetch base rand v k 0 maxRetries (by omega)
    (fun i hi => by
      obtain ⟨e, he, hs⟩ := hfail i hi
      exact ⟨e, by simpa using he, isRetryableErr_of_503 e hs⟩)
    (by simpa using hsucc)
  rw [withRetry, hrun]
  refine ⟨rfl, rfl, by simp, ?_⟩
  intro i hi
  simp only [List.length_map, List.length_range] at hi
  simp only [List.get_eq_getElem, List.getElem_map, List.getElem_range, Nat.zero_add]
  unfold backoffDelay
  have h2 : (0 : ℚ) ≤ base * 2 ^ i := by positivity
  have hj : (1 / 2 : ℚ) ≤ 1 / 2 + rand i := by linarith [hrand i]
  exact mul_le_mul_of_nonneg_left hj h2

/-- Witness for C5: two 503 failures, then success with value 42, under the
JS defaults `maxRetries = 3`, `baseDelay = 1000` and a `Math.random()` that
always draws `1/4`: the result is 42 after 3 calls and 2 sleeps. -/
theorem withRetry_transient_then_success_witness :
    (withRetry
        (fun i => if i < 2
          then (Except.error ⟨some 503, none, none, true, "Service Unavailable"⟩
            : Except JsErr Nat)
          else Except.ok 42)
        3 1000 (fun _ => 1 / 4)).result = Except.ok 42 ∧
    (withRetry
        (fun i => if i < 2
          then (Except.error ⟨some 503, none, none, true, "Service Unavailable"⟩
            : Except JsErr Nat)
          else Except.ok 42)
        3 1000 (fun _ => 1 / 4)).calls = 3 ∧
    (withRetry
        (fun i => if i < 2
          then (Except.error ⟨some 503, none, none, true, "Service Unavailable"⟩
            : Except JsErr Nat)
          else Except.ok 42)
        3 1000 (fun _ => 1 / 4)).delays.length = 2 := by
  have h := withRetry_transient_then_success
    (fun i => if i < 2
      then (Except.error ⟨some 503, none, none, true, "Service Unavailable"⟩
        : Except JsErr Nat)
      else Except.ok 42)
    3 1000 (fun _ => 1 / 4) 42 2
    (by norm_num) (fun i => by norm_num) (by omega)
    (fun i hi => ⟨⟨some 503, none, none, true, "Service Unavailable"⟩,
      by simp [hi], by decide⟩)
    rfl
  exact ⟨h.1, h.2.1, h.2.2.1⟩

/-- C6: if the wrapped operation fails with an error whose probed status is
neither 429 nor ≥ 500 — including an error with no numeric status at all —
`withRetry` invokes the operation exactly once, performs no sleep, and
returns that exact error value unchanged. -/
theorem withRetry_nonRetryable_propagates (fetch : Nat → Except JsErr α)
    (maxRetries : Nat) (base : ℚ) (rand : Nat → ℚ) (e : JsErr)
    (hf : fetch 0 = Except.error e)
    (hs : getStatusCode e = none ∨ ∃ s, getStatusCode e = some s ∧ s ≠ 429 ∧ s < 500) :
    withRetry fetch maxRetries base rand = ⟨Except.error e, [], 1⟩ := by
  have hr : isRetryableErr e = false := by
    rcases hs with h | ⟨s, h, h429, h500⟩
    · simp [isRetryableErr, h]
    · simp only [isRetryableErr, h, Bool.or_eq_false_iff, beq_eq_false_iff_ne, ne_eq,
        decide_eq_false_iff_not, not_le]
      exact ⟨h429, h500⟩
  rw [withRetry, withRetryGo, hf]
  simp [hr]

/-- Witness for C6: a 404 failure is propagated after a single call and no
sleep. -/
theorem withRetry_nonRetryable_propagates_witness :
    withRetry (fun _ => (Except.error ⟨none, some 404, none, true, "Not Found"⟩
        : Except JsErr Nat))
      3 1000 (fun _ => 0) =
      ⟨Except.error ⟨none, some 404, none, true, "Not Found"⟩, [], 1⟩ :=
  withRetry_nonRetryable_propagates _ 3 1000 _ _ rfl
    (Or.inr ⟨404, rfl, by decide, by decide⟩)

/-- C7 (amended): every backoff delay computed for a retryable failure on
0-based attempt `attempt` equals `baseDelay * 2 ^ attempt * (1/2 + r)` for
the `Math.random()` draw `r ∈ [0, 1)`; hence each delay is at least half of,
and strictly less than one-and-a-half times, the pure-exponential value
`baseDelay * 2 ^ attempt`.  The unamended claim restricts `r` to `[0, 1/2)`
(delay strictly below the pure-exponential value), which the code's
`0.5 + Math.random()` factor does not guarantee (see the counterexample). -/
theorem backoffDelay_jitter_range (base : ℚ) (attempt : Nat) (r : ℚ)
    (hb : 0 < base) (h0 : 0 ≤ r) (h1 : r < 1) :
    backoffDelay base attempt r = base * 2 ^ attempt * (1 / 2 + r) ∧
    base * 2 ^ attempt * (1 / 2) ≤ backoffDelay base attempt r ∧
    backoffDelay base attempt r < base * 2 ^ attempt * (3 / 2) := by
  have h2 : (0 : ℚ) < base * 2 ^ attempt := by positivity
  refine ⟨rfl, ?_, ?_⟩ <;> unfold backoffDelay
  · exact mul_le_mul_of_nonneg_left (by linarith) (le_of_lt h2)
  · exact mul_lt_mul_of_pos_left (by linarith) h2

/-- Witness for C7 (amended): at `baseDelay = 1000`, attempt 0 and a draw of
`1/4`, the delay is `1000 * (1/2 + 1/4) = 750`, between 500 and 1500. -/
theorem backoffDelay_jitter_range_witness :
    backoffDelay 1000 0 (1 / 4) = 1000 * 2 ^ 0 * (1 / 2 + 1 / 4) ∧
    1000 * 2 ^ 0 * (1 / 2 : ℚ) ≤ backoffDelay 1000 0 (1 / 4) ∧
    backoffDelay 1000 0 (1 / 4) < 1000 * 2 ^ 0 * (3 / 2) :=
  backoffDelay_jitter_range 1000 0 (1 / 4) (by norm_num) (by norm_num) (by norm_num)

/-- C7 counterexample: `7/10` is a legitimate `Math.random()` draw, and the
resulting delay `backoffDelay 1000 0 (7/10) = 1200` is not of the form
`1000 * 2 ^ 0 * (1/2 + r)` for any `r ∈ [0, 1/2)` — in particular it is not
below the pure-exponential value 1000. -/
theorem backoffDelay_jitter_cex :
    ((0 : ℚ) ≤ 7 / 10 ∧ (7 / 10 : ℚ) < 1) ∧
    ¬ ∃ r : ℚ, 0 ≤ r ∧ r < 1 / 2 ∧
        backoffDelay 1000 0 (7 / 10) = 1000 * 2 ^ 0 * (1 / 2 + r) := by
  refine ⟨by norm_num, ?_⟩
  rintro ⟨r, h0, h1, he⟩
  unfold backoffDelay at he
  norm_num at he
  linarith

/-! ## Rate limiter lemmas -/

/-- When all operations succeed, the loop returns their values in order. -/
lemma rateLimitedGo_result (d : ℚ) (vs : List α) :
    ∀ i, (rateLimitedGo d (vs.map Except.ok) i).1 = Except.ok vs := by
  induction vs with
  | nil => intro i; rfl
  | cons v rest ih =>
    intro i
    simp only [List.map_cons, rateLimitedGo]
    rw [ih (i + 1)]
    rfl

/-- When all operations succeed, the sleeps performed are `delayMs` once per
operation, except that the operation at position 0 is not preceded by one. -/
lemma rateLimitedGo_delays (d : ℚ) (vs : List α) :
    ∀ i, (rateLimitedGo d (vs.map Except.ok) i).2.filterMap stepDelayAmount
      = List.replicate (if i = 0 then vs.length - 1 else vs.length) d := by
  induction vs with
  | nil => intro i; simp [rateLimitedGo]
  | cons v rest ih =>
    intro i
    simp only [List.map_cons, rateLimitedGo]
    rw [List.filterMap_append, List.filterMap_append]
    rw [ih (i + 1)]
    by_cases hi : i = 0
    · subst hi
      simp [stepDelayAmount]
    · simp only [if_neg hi, if_pos (Nat.pos_of_ne_zero hi)]
      simp [stepDelayAmount, List.replicate_succ]

/-- When all operations succeed, the operations are invoked in input order:
starting at position `i`, the invocation indices are `i, i+1, …`. -/
lemma rateLimitedGo_invokes (d : ℚ) (vs : List α) :
    ∀ i, (rateLimitedGo d (vs.map Except.ok) i).2.filterMap stepInvokeIdx
      = List.range' i vs.length := by
  induction vs with
  | nil => intro i; simp [rateLimitedGo]
  | cons v rest ih =>
    intro i
    simp only [List.map_cons, rateLimitedGo]
    rw [List.filterMap_append, List.filterMap_append]
    rw [ih (i + 1)]
    by_cases hi : 0 < i <;>
      simp [hi, stepDelayAmount, stepInvokeIdx, List.range'_succ]

/-! ## Claim about the rate limiter -/

/-- C9: for every list of operations that all succeed, `rateLimited` returns
their results in input order, performs exactly `N - 1` sleeps each of
`delayMs`, and invokes the operations strictly in input order
(indices `0, 1, …, N-1`). -/
theorem rateLimited_in_order (vs : List α) (d : ℚ) :
    (rateLimited (vs.map Except.ok) d).1 = Except.ok vs ∧
    (rateLimited (vs.map Except.ok) d).2.filterMap stepDelayAmount
      = List.replicate (vs.length - 1) d ∧
    (rateLimited (vs.map Except.ok) d).2.filterMap stepInvokeIdx
      = List.range vs.length := by
  refine ⟨rateLimitedGo_result d vs 0, ?_, ?_⟩
  · rw [rateLimited, rateLimitedGo_delays d vs 0]
    simp
  · rw [rateLimited, rateLimitedGo_invokes d vs 0, List.range_eq_range']

/-! ## Claims about the permission fallback -/

/-- C10: `withPermissionFallback` runs its fallback at most once per call —
exactly when the primary operation rejects with a value that is an `Error`
instance whose message contains `"permission"` case-insensitively (then the
result is the fallback's, with the fallback's calls appended once to the
trace); any other rejection, including a non-`Error` value whose text
mentions permission, propagates unchanged with no fallback call. -/
theorem withPermissionFallback_once_iff_permission
    (op fb : Except JsErr α × List String) :
    ((∃ e, op.1 = Except.error e ∧ isPermissionError e = true) →
        withPermissionFallback op fb = (fb.1, op.2 ++ fb.2)) ∧
    ((∀ e, op.1 = Except.error e → isPermissionError e = false) →
        withPermissionFallback op fb = op) := by
  obtain ⟨res, t⟩ := op
  constructor
  · rintro ⟨e, he, hp⟩
    simp only at he
    subst he
    simp [withPermissionFallback, hp]
  · intro h
    cases res with
    | ok v => rfl
    | error e =>
      have he := h e rfl
      simp [withPermissionFallback, he]

/-- Witness for C10: a non-`Error` rejection whose text says "permission
denied" is propagated unchanged — the fallback result (`ok 7`) is not used
and the fallback's calls do not appear in the trace. -/
theorem withPermissionFallback_once_iff_permission_witness :
    withPermissionFallback
        ((Except.error ⟨none, none, none, false, "permission denied"⟩ : Except JsErr Nat),
          ["https://example.com/"])
        (Except.ok 7, ["sc-domain:example.com"]) =
      ((Except.error ⟨none, none, none, false, "permission denied"⟩ : Except JsErr Nat),
        ["https://example.com/"]) :=
  (withPermissionFallback_once_iff_permission _ _).2
    (fun e he => by
      injection he with h
      rw [← h]
      decide)

/-- C8 (amended): if the primary operation rejects with a permission error
and the site identifier neither starts with `sc-domain:` nor parses as a URL,
then `normalizeUrl` returns the identifier unchanged, and the fallback query
IS attempted — with that same unchanged identifier (a duplicate of the
primary call) — and the caller receives that fallback call's outcome.  The
unamended claim ("no fallback call is attempted, and the caller sees the
original error") fails: `withPermissionFallback` never compares the
normalized identifier with the original one (see the counterexample). -/
theorem searchAnalytics_unparseable_duplicates_query
    (query : Nat → String → Except JsErr α) (parseHost : String → Option String)
    (siteUrl : String) (e : JsErr)
    (hsc : jsStartsWith siteUrl "sc-domain:" = false)
    (hparse : parseHost siteUrl = none)
    (hq : query 0 siteUrl = Except.error e)
    (hperm : isPermissionError e = true) :
    normalizeUrl parseHost siteUrl = siteUrl ∧
    (searchAnalytics query parseHost siteUrl).2 = [siteUrl, siteUrl] ∧
    (searchAnalytics query parseHost siteUrl).1 = query 1 siteUrl := by
  have hn : normalizeUrl parseHost siteUrl = siteUrl := by
    simp [normalizeUrl, hsc, hparse]
  refine ⟨hn, ?_, ?_⟩ <;>
    simp [searchAnalytics, withPermissionFallback, hq, hperm, hn]

/-- Witness for C8 (amended): a primary permission failure on the identifier
`"::bad url::"` (not `sc-domain:`, not parseable) leads to a second query
with the very same identifier, whose outcome the caller receives. -/
theorem searchAnalytics_unparseable_duplicates_query_witness :
    normalizeUrl (fun _ => none) "::bad url::" = "::bad url::" ∧
    (searchAnalytics
        (fun i _ => if i = 0
          then (Except.error ⟨none, none, none, true, "Permission denied"⟩
            : Except JsErr Nat)
          else Except.ok 3)
        (fun _ => none) "::bad url::").2 = ["::bad url::", "::bad url::"] ∧
    (searchAnalytics
        (fun i _ => if i = 0
          then (Except.error ⟨none, none, none, true, "Permission denied"⟩
            : Except JsErr Nat)
          else Except.ok 3)
        (fun _ => none) "::bad url::").1 =
      (fun i _ => if i = 0
        then (Except.error ⟨none, none, none, true, "Permission denied"⟩
          : Except JsErr Nat)
        else Except.ok 3) 1 "::bad url::" :=
  searchAnalytics_unparseable_duplicates_query _ (fun _ => none) "::bad url::"
    ⟨none, none, none, true, "Permission denied"⟩
    (by decide) rfl rfl (by decide)

/-- C8 counterexample: with an unparseable identifier and a deterministic
permission failure, the trace of queried identifiers has two entries — the
fallback call IS attempted (against the unchanged identifier), refuting "no
fallback call is attempted". -/
theorem searchAnalytics_unparseable_fallback_cex :
    jsStartsWith "::bad url::" "sc-domain:" = false ∧
    (searchAnalytics
        (fun _ _ => (Except.error ⟨none, none, none, true, "Permission denied"⟩
          : Except JsErr Nat))
        (fun _ => none) "::bad url::").2 = ["::bad url::", "::bad url::"] := by
  decide

end GSC
